import Mathlib

/-!
Verification of the Doc-Block Classifier design of the CodeChat Editor style
guide repository, together with the two concrete code artifacts of
`src/docs/style_guide.cpp` (`accurate_g` and `main`).

The repository's only source file is a literate-programming style guide; the
classifier itself is described at design level in the specification (§3, §4.1,
§7).  Its data model and algorithm are therefore modelled here from the
specification text, while `accurate_g` and `main` are embedded from the C++
source.
-/

namespace CodeChat

/-- Modelled from the spec: the lexical role of a source line (§3
`comment_kind`), as supplied by the external tokenizer.  The classifier source
is not present in the repository, only its design in the specification. -/
inductive CommentKind : Type where
  | NONE : CommentKind
  | LINE : CommentKind
  | BLOCK_START : CommentKind
  | BLOCK_BODY : CommentKind
  | BLOCK_END : CommentKind
deriving DecidableEq, Repr

/-- Modelled from the spec: the delimiter family of a comment (glossary:
"whether a comment uses a single-line marker or a multi-line (block)
marker"). -/
inductive DelimFamily : Type where
  | line : DelimFamily
  | block : DelimFamily
deriving DecidableEq, Repr

/-- Modelled from the spec: a `SourceLine` record (§3), produced by the
external tokenizer. -/
structure SourceLine : Type where
  text : String
  line_number : Nat
  indent_width : Nat
  comment_kind : CommentKind
  delimiter : String
  has_space_after_delimiter : Bool
  trailing_code : Bool
deriving DecidableEq, Repr

/-- Modelled from the spec: a segment is either a CODE segment or a DOC
segment (§3 `Segment.kind`). -/
inductive SegKind : Type where
  | CODE : SegKind
  | DOC : SegKind
deriving DecidableEq, Repr

/-- Modelled from the spec: a `Segment` (§3): a run of source lines classified
uniformly, with the common indent and (for DOC segments) the shared
delimiter. -/
structure Segment : Type where
  kind : SegKind
  indent_width : Nat
  delimiter : Option String
  lines : List SourceLine
deriving DecidableEq, Repr

/-- Modelled from the spec: the single error of the classifier layer (§7),
`MalformedInputError`, carrying the offending line's number. -/
structure MalformedInputError : Type where
  line_number : Nat
deriving DecidableEq, Repr

/-- The delimiter family determined by a comment kind: `LINE` comments are the
line family, every block-comment kind is the block family.  Only queried on
lines whose `comment_kind` is not `NONE`. -/
def delimFamily : CommentKind → DelimFamily
  | CommentKind.LINE => DelimFamily.line
  | _ => DelimFamily.block

/-- `true` exactly when the kind marks a comment (`comment_kind != NONE`). -/
def isComment : CommentKind → Bool
  | CommentKind.NONE => false
  | _ => true

/-- Modelled from the spec (§4.1 step 2a): `is_doc_line(line) :=
line.comment_kind != NONE AND line.has_space_after_delimiter AND NOT
line.trailing_code`. -/
def is_doc_line (l : SourceLine) : Bool :=
  isComment l.comment_kind && l.has_space_after_delimiter && !l.trailing_code

/-- The delimiter family of a segment accumulator, read from its first line
(`none` for an empty line list). -/
def segFamily (seg : Segment) : Option DelimFamily :=
  seg.lines.head?.map (fun l => delimFamily l.comment_kind)

/-- A fresh one-line DOC segment started by the doc line `l` (§4.1 step 2c). -/
def newDoc (l : SourceLine) : Segment :=
  { kind := SegKind.DOC, indent_width := l.indent_width,
    delimiter := some l.delimiter, lines := [l] }

/-- A fresh one-line CODE segment started by the non-doc line `l`
(§4.1 step 2b). -/
def newCode (l : SourceLine) : Segment :=
  { kind := SegKind.CODE, indent_width := l.indent_width,
    delimiter := none, lines := [l] }

/-- Modelled from the spec (§4.1 steps 2b-2c): the segmentation action of one
line on the current accumulator.  Returns the new accumulator together with
the list of segments closed by this line (empty or a singleton). -/
def segStep (acc : Option Segment) (l : SourceLine) :
    Option Segment × List Segment :=
  match acc with
  | none =>
      if is_doc_line l then (some (newDoc l), []) else (some (newCode l), [])
  | some seg =>
      if is_doc_line l then
        if seg.kind = SegKind.DOC ∧ seg.indent_width = l.indent_width ∧
            segFamily seg = some (delimFamily l.comment_kind) then
          (some { seg with lines := seg.lines ++ [l] }, [])
        else
          (some (newDoc l), [seg])
      else
        if seg.kind = SegKind.CODE then
          (some { seg with lines := seg.lines ++ [l] }, [])
        else
          (some (newCode l), [seg])

/-- Modelled from the spec (§7): the block-comment accumulation context.
`BLOCK_START` opens the context; `BLOCK_BODY` and `BLOCK_END` require an open
context (else `none`, the malformed-input signal); `BLOCK_END` closes it;
other kinds leave it unchanged. -/
def blockCheck (bo : Bool) : CommentKind → Option Bool
  | CommentKind.BLOCK_START => some true
  | CommentKind.BLOCK_BODY => if bo then some true else none
  | CommentKind.BLOCK_END => if bo then some false else none
  | _ => some bo

/-- The running state of the classifier: segments already emitted, the open
accumulator (§4.1 step 1), and whether a block comment is open (§7). -/
structure ClState : Type where
  done : List Segment
  acc : Option Segment
  block_open : Bool
deriving DecidableEq, Repr

/-- Close the open accumulator into the result (§4.1 steps 2b-2c and 3-4). -/
def closeAcc (s : ClState) : ClState :=
  match s.acc with
  | none => s
  | some seg => { s with done := s.done ++ [seg], acc := none }

/-- Modelled from the spec: processing of a single line: check the block
context (§7), then perform the segmentation action (§4.1 step 2). -/
def classifyStep (s : ClState) (l : SourceLine) :
    Except MalformedInputError ClState :=
  match blockCheck s.block_open l.comment_kind with
  | none => Except.error { line_number := l.line_number }
  | some b =>
      Except.ok { done := s.done ++ (segStep s.acc l).2,
                  acc := (segStep s.acc l).1,
                  block_open := b }

/-- The classification loop over the remaining lines (§4.1 step 2), closing
the final accumulator at end of input (§4.1 step 4). -/
def classifyGo (s : ClState) : List SourceLine →
    Except MalformedInputError (List Segment)
  | [] => Except.ok (closeAcc s).done
  | l :: ls =>
      match classifyStep s l with
      | Except.error e => Except.error e
      | Except.ok t => classifyGo t ls

/-- Modelled from the spec: `classify(lines) -> ordered sequence of Segment`
(§4.1), reporting `MalformedInputError` to the caller (§7). -/
def classify (lines : List SourceLine) :
    Except MalformedInputError (List Segment) :=
  classifyGo { done := [], acc := none, block_open := false } lines

/-- The lines held by an optional accumulator. -/
def accLines : Option Segment → List SourceLine
  | none => []
  | some seg => seg.lines

/-- Modelled from the spec (§7): a `BLOCK_BODY` or `BLOCK_END` line occurs
without a preceding `BLOCK_START` in the same accumulation context, the
context being threaded as the boolean `bo`. -/
def malformedFrom (bo : Bool) : List SourceLine → Bool
  | [] => false
  | l :: ls =>
      match l.comment_kind with
      | CommentKind.BLOCK_START => malformedFrom true ls
      | CommentKind.BLOCK_BODY => if bo then malformedFrom bo ls else true
      | CommentKind.BLOCK_END => if bo then malformedFrom false ls else true
      | _ => malformedFrom bo ls

/-!
Embedding of the two code artifacts of `src/docs/style_guide.cpp`.
-/

/-- The arithmetic operations the C++ function `accurate_g` uses on `double`
values: decimal literals, the arithmetic operators, and the `<cmath>`
functions `sin` and `pow`.  Abstracting them lets every theorem below hold
under any interpretation of the operations, in particular the program's
IEEE-754 double arithmetic. -/
structure Arith (α : Type) : Type where
  lit : ℚ → α
  add : α → α → α
  sub : α → α → α
  mul : α → α → α
  neg : α → α
  sin : α → α
  pow : α → α → α

/-- `double accurate_g(double degrees_latitude, double height_meters)` from
`src/docs/style_guide.cpp` lines 122-158, operation for operation:
`IGF = 9.780327 * (1 + 0.0053024 * pow(sin(degrees_latitude), 2)
- 0.0000058 * pow(sin(2 * degrees_latitude), 2))`,
`FAC = -3.086E-6 * height_meters`, returning `IGF + FAC`. -/
def accurate_g {α : Type} (A : Arith α) (degrees_latitude height_meters : α) :
    α :=
  let IGF : α :=
    A.mul (A.lit 9.780327)
      (A.sub
        (A.add (A.lit 1)
          (A.mul (A.lit 0.0053024)
            (A.pow (A.sin degrees_latitude) (A.lit 2))))
        (A.mul (A.lit 0.0000058)
          (A.pow (A.sin (A.mul (A.lit 2) degrees_latitude)) (A.lit 2))))
  let FAC : α := A.mul (A.neg (A.lit 3.086e-6)) height_meters
  A.add IGF FAC

/-- The IGF formula exactly as the claim states it:
`IGF = 9.780327 * (1 + 0.0053024 * sin(degrees_latitude)^2
- 0.0000058 * sin(2 * degrees_latitude)^2)`, with `sin` applied directly to
the latitude expressed in degrees. -/
def IGF_claim {α : Type} (A : Arith α) (degrees_latitude : α) : α :=
  A.mul (A.lit 9.780327)
    (A.sub
      (A.add (A.lit 1)
        (A.mul (A.lit 0.0053024)
          (A.pow (A.sin degrees_latitude) (A.lit 2))))
      (A.mul (A.lit 0.0000058)
        (A.pow (A.sin (A.mul (A.lit 2) degrees_latitude)) (A.lit 2))))

/-- The FAC formula exactly as the claim states it:
`FAC = -3.086E-6 * height_meters`. -/
def FAC_claim {α : Type} (A : Arith α) (height_meters : α) : α :=
  A.mul (A.neg (A.lit 3.086e-6)) height_meters

/-- `int main(int argc, char* argv[])` from `src/docs/style_guide.cpp` lines
276-291.  Its body holds a block comment (`/** foo(); */`), an `#if 0 ...
#endif` region whose guard is false so the preprocessor removes its contents,
and `return 0;`.  The embedding records the trace of calls the body performs
together with the returned value; the `#if 0` guard is kept explicit. -/
def main_cpp (argc : Int) (argv : List String) : List String × Int :=
  let if0_calls : List String := if (0 : Int) ≠ 0 then ["foo()"] else []
  (if0_calls, 0)

/-!
Concrete example lines, used by the witness theorems.  They correspond to the
scenario lines of §8 of the specification.
-/

/-- A doc line `"// doc one"`: line comment, indent 0, space after `//`. -/
def exDoc1 : SourceLine :=
  { text := "// doc one", line_number := 1, indent_width := 0,
    comment_kind := CommentKind.LINE, delimiter := "//",
    has_space_after_delimiter := true, trailing_code := false }

/-- A doc line `"// doc two"`: line comment, indent 0, space after `//`. -/
def exDoc2 : SourceLine :=
  { text := "// doc two", line_number := 2, indent_width := 0,
    comment_kind := CommentKind.LINE, delimiter := "//",
    has_space_after_delimiter := true, trailing_code := false }

/-- A blank line: no comment, empty text. -/
def exBlank : SourceLine :=
  { text := "", line_number := 2, indent_width := 0,
    comment_kind := CommentKind.NONE, delimiter := "",
    has_space_after_delimiter := false, trailing_code := false }

/-- A code line with a trailing comment: `"int x = 1; // trailing"`. -/
def exCode : SourceLine :=
  { text := "int x = 1; // trailing", line_number := 1, indent_width := 0,
    comment_kind := CommentKind.LINE, delimiter := "//",
    has_space_after_delimiter := true, trailing_code := true }

/-- A `BLOCK_BODY` line with no preceding `BLOCK_START`. -/
def exBody : SourceLine :=
  { text := "   stray body", line_number := 1, indent_width := 3,
    comment_kind := CommentKind.BLOCK_BODY, delimiter := "/*",
    has_space_after_delimiter := true, trailing_code := false }

/-!
Helper lemmas about the classifier.
-/

/-- One segmentation step conserves lines: the lines of the segments it closes
followed by the lines of the new accumulator are the old accumulator's lines
followed by the processed line. -/
lemma segStep_lines (acc : Option Segment) (l : SourceLine) :
    ((segStep acc l).2.map Segment.lines).flatten ++ accLines (segStep acc l).1
      = accLines acc ++ [l] := by
  rcases acc with _ | seg
  · simp only [segStep]
    split <;> simp [accLines, newDoc, newCode]
  · simp only [segStep]
    split
    · split <;> simp [accLines, newDoc, newCode]
    · split <;> simp [accLines, newDoc, newCode]

/-- The classification loop conserves lines: on success, the concatenation of
the returned segments' lines is the already-emitted lines, the accumulator's
lines, then the remaining input. -/
lemma classifyGo_flatten (ls : List SourceLine) :
    ∀ (s : ClState) (segs : List Segment),
      classifyGo s ls = Except.ok segs →
      (segs.map Segment.lines).flatten
        = (s.done.map Segment.lines).flatten ++ accLines s.acc ++ ls := by
  induction ls with
  | nil =>
      intro s segs h
      simp only [classifyGo, Except.ok.injEq] at h
      subst h
      cases hacc : s.acc with
      | none => simp [closeAcc, hacc, accLines]
      | some seg => simp [closeAcc, hacc, accLines]
  | cons l ls ih =>
      intro s segs h
      simp only [classifyGo] at h
      cases hstep : classifyStep s l with
      | error e => rw [hstep] at h; cases h
      | ok t =>
          rw [hstep] at h
          have ht := ih t segs h
          unfold classifyStep at hstep
          cases hbc : blockCheck s.block_open l.comment_kind with
          | none => rw [hbc] at hstep; cases hstep
          | some b =>
              rw [hbc] at hstep
              have hteq :
                  ({ done := s.done ++ (segStep s.acc l).2,
                     acc := (segStep s.acc l).1, block_open := b } : ClState)
                    = t := by
                exact Except.ok.inj hstep
              subst hteq
              rw [ht]
              have hsl := segStep_lines s.acc l
              simp only [List.map_append, List.flatten_append, List.append_assoc]
              rw [← List.append_assoc (((segStep s.acc l).2.map
                    Segment.lines).flatten), hsl]
              simp

/-- The DOC-segment invariant (§3): if the segment is a DOC segment, each of
its lines is a doc line, carries the segment's indent, and has the segment's
delimiter family. -/
def segDocOk (seg : Segment) : Prop :=
  seg.kind = SegKind.DOC →
    ∀ l ∈ seg.lines,
      is_doc_line l = true ∧ l.indent_width = seg.indent_width ∧
        segFamily seg = some (delimFamily l.comment_kind)

/-- One segmentation step preserves the DOC-segment invariant, on the closed
segments and on the new accumulator alike. -/
lemma segStep_docOk (acc : Option Segment) (l : SourceLine)
    (hacc : ∀ seg, acc = some seg → segDocOk seg) :
    (∀ seg ∈ (segStep acc l).2, segDocOk seg) ∧
      (∀ seg, (segStep acc l).1 = some seg → segDocOk seg) := by
  rcases acc with _ | seg
  · simp only [segStep]
    split
    · refine ⟨by simp, ?_⟩
      intro sg hsg hkind l1 hl1
      simp only [Option.some.injEq] at hsg
      subst hsg
      simp only [newDoc, List.mem_singleton] at hl1 ⊢
      subst hl1
      refine ⟨by assumption, rfl, rfl⟩
    · refine ⟨by simp, ?_⟩
      intro sg hsg hkind l1 hl1
      simp only [Option.some.injEq] at hsg
      subst hsg
      simp [newCode] at hkind
  · have hseg := hacc seg rfl
    simp only [segStep]
    split
    · rename_i hdoc
      split
      · rename_i hjoin
        obtain ⟨hk, hw, hf⟩ := hjoin
        refine ⟨by simp, ?_⟩
        intro sg hsg hkind l1 hl1
        simp only [Option.some.injEq] at hsg
        subst hsg
        simp only [List.mem_append, List.mem_singleton] at hl1
        have hfam2 : segFamily { seg with lines := seg.lines ++ [l] }
            = segFamily seg := by
          cases hls : seg.lines with
          | nil => simp [segFamily, hls] at hf
          | cons a as => simp [segFamily, hls]
        rcases hl1 with hl1 | hl1
        · obtain ⟨h1, h2, h3⟩ := hseg hk l1 hl1
          exact ⟨h1, h2, by rw [hfam2]; exact h3⟩
        · subst hl1
          exact ⟨hdoc, hw.symm, by rw [hfam2]; exact hf⟩
      · refine ⟨?_, ?_⟩
        · intro sg hsg
          simp only [List.mem_singleton] at hsg
          subst hsg; exact hseg
        · intro sg hsg hkind l1 hl1
          simp only [Option.some.injEq] at hsg
          subst hsg
          simp only [newDoc, List.mem_singleton] at hl1
          subst hl1
          refine ⟨by assumption, rfl, rfl⟩
    · split
      · refine ⟨by simp, ?_⟩
        intro sg hsg hkind l1 hl1
        simp only [Option.some.injEq] at hsg
        subst hsg
        rename_i hcode
        simp only at hkind
        rw [hkind] at hcode
        cases hcode
      · refine ⟨?_, ?_⟩
        · intro sg hsg
          simp only [List.mem_singleton] at hsg
          subst hsg; exact hseg
        · intro sg hsg hkind l1 hl1
          simp only [Option.some.injEq] at hsg
          subst hsg
          simp [newCode] at hkind

/-- The classification loop preserves the DOC-segment invariant: every
returned segment satisfies it whenever the emitted segments and the open
accumulator do. -/
lemma classifyGo_docOk (ls : List SourceLine) :
    ∀ (s : ClState) (segs : List Segment),
      classifyGo s ls = Except.ok segs →
      (∀ seg ∈ s.done, segDocOk seg) →
      (∀ seg, s.acc = some seg → segDocOk seg) →
      ∀ seg ∈ segs, segDocOk seg := by
  induction ls with
  | nil =>
      intro s segs h hdone hacc seg hseg
      simp only [classifyGo, Except.ok.injEq] at h
      subst h
      cases hsa : s.acc with
      | none =>
          rw [closeAcc, hsa] at hseg
          exact hdone _ hseg
      | some a =>
          rw [closeAcc, hsa] at hseg
          simp only [List.mem_append, List.mem_singleton] at hseg
          rcases hseg with h1 | h1
          · exact hdone _ h1
          · subst h1; exact hacc _ hsa
  | cons l ls ih =>
      intro s segs h hdone hacc
      simp only [classifyGo] at h
      cases hstep : classifyStep s l with
      | error e => rw [hstep] at h; cases h
      | ok t =>
          rw [hstep] at h
          unfold classifyStep at hstep
          cases hbc : blockCheck s.block_open l.comment_kind with
          | none => rw [hbc] at hstep; cases hstep
          | some b =>
              rw [hbc] at hstep
              have hteq := Except.ok.inj hstep
              subst hteq
              have hss := segStep_docOk s.acc l hacc
              refine ih _ segs h ?_ hss.2
              intro seg hseg
              simp only [List.mem_append] at hseg
              rcases hseg with h1 | h1
              · exact hdone _ h1
              · exact hss.1 _ h1

/-- On success, every returned segment of `classify` satisfies the
DOC-segment invariant. -/
lemma classify_docOk (lines : List SourceLine) (segs : List Segment)
    (h : classify lines = Except.ok segs) :
    ∀ seg ∈ segs, segDocOk seg :=
  classifyGo_docOk lines _ segs h (by intro seg hseg; cases hseg)
    (fun seg hseg => Option.noConfusion hseg)

/-- The classification loop fails exactly on malformed input: it returns an
error if and only if the remaining lines contain a `BLOCK_BODY` or
`BLOCK_END` without a preceding `BLOCK_START` in the accumulation context it
was started in. -/
lemma classifyGo_error_iff (ls : List SourceLine) :
    ∀ (s : ClState),
      (∃ e, classifyGo s ls = Except.error e) ↔
        malformedFrom s.block_open ls = true := by
  induction ls with
  | nil => intro s; simp [classifyGo, malformedFrom]
  | cons l ls ih =>
      intro s
      cases hk : l.comment_kind with
      | NONE =>
          simp only [classifyGo, classifyStep, blockCheck, hk, malformedFrom]
          exact ih _
      | LINE =>
          simp only [classifyGo, classifyStep, blockCheck, hk, malformedFrom]
          exact ih _
      | BLOCK_START =>
          simp only [classifyGo, classifyStep, blockCheck, hk, malformedFrom]
          exact ih _
      | BLOCK_BODY =>
          cases hb : s.block_open with
          | true =>
              simp only [classifyGo, classifyStep, blockCheck, hk,
                malformedFrom, hb, if_true]
              exact ih _
          | false =>
              simp [classifyGo, classifyStep, blockCheck, hk,
                malformedFrom, hb]
      | BLOCK_END =>
          cases hb : s.block_open with
          | true =>
              simp only [classifyGo, classifyStep, blockCheck, hk,
                malformedFrom, hb, if_true]
              exact ih _
          | false =>
              simp [classifyGo, classifyStep, blockCheck, hk,
                malformedFrom, hb]

/-!
Claim theorems.
-/

/-- Claim C1: for every input sequence of `SourceLine`, the concatenation of
the lines of all segments returned by `classify` equals the original input
sequence, in the original order, with no line duplicated and no line omitted:
segments are contiguous and cover the input exactly once. -/
theorem claim_C1_coverage (lines : List SourceLine) (segs : List Segment)
    (h : classify lines = Except.ok segs) :
    (segs.map Segment.lines).flatten = lines := by
  have hcov := classifyGo_flatten lines _ segs h
  simpa [accLines] using hcov

/-- Witness for C1 at the concrete input `[exCode, exDoc1]`. -/
theorem claim_C1_coverage_witness :
    (([{ kind := SegKind.CODE, indent_width := 0, delimiter := none,
          lines := [exCode] },
        { kind := SegKind.DOC, indent_width := 0, delimiter := some "//",
          lines := [exDoc1] }] : List Segment).map Segment.lines).flatten
      = [exCode, exDoc1] :=
  claim_C1_coverage [exCode, exDoc1] _ rfl

/-- Claim C2: in every DOC segment returned by `classify`, all contained
lines share one `indent_width` and one delimiter family; consequently two
adjacent doc lines that differ in indent width or in delimiter family can
never lie in the same DOC segment. -/
theorem claim_C2_uniformity (lines : List SourceLine) (segs : List Segment)
    (h : classify lines = Except.ok segs) (seg : Segment) (hseg : seg ∈ segs)
    (hdoc : seg.kind = SegKind.DOC) (l1 : SourceLine) (hl1 : l1 ∈ seg.lines)
    (l2 : SourceLine) (hl2 : l2 ∈ seg.lines) :
    l1.indent_width = l2.indent_width ∧
      delimFamily l1.comment_kind = delimFamily l2.comment_kind := by
  have h1 := classify_docOk lines segs h seg hseg hdoc l1 hl1
  have h2 := classify_docOk lines segs h seg hseg hdoc l2 hl2
  exact ⟨h1.2.1.trans h2.2.1.symm,
    Option.some.inj (h1.2.2.symm.trans h2.2.2)⟩

/-- Witness for C2 on the two-line DOC segment produced from
`[exDoc1, exDoc2]`. -/
theorem claim_C2_uniformity_witness :
    exDoc1.indent_width = exDoc2.indent_width ∧
      delimFamily exDoc1.comment_kind = delimFamily exDoc2.comment_kind :=
  claim_C2_uniformity [exDoc1, exDoc2] _ rfl
    { kind := SegKind.DOC, indent_width := 0, delimiter := some "//",
      lines := [exDoc1, exDoc2] }
    (List.mem_singleton.mpr rfl) rfl exDoc1 (by simp) exDoc2 (by simp)

/-- Claim C3: a blank line (tagged `comment_kind = NONE` by the tokenizer)
never appears inside a DOC segment — any line of a DOC segment has
`comment_kind ≠ NONE`; and classifying doc-comment, blank, doc-comment yields
exactly DOC, CODE, DOC, the blank line folded into the CODE segment. -/
theorem claim_C3_blank_line (lines : List SourceLine) (segs : List Segment)
    (h : classify lines = Except.ok segs) :
    (∀ seg ∈ segs, seg.kind = SegKind.DOC →
        ∀ l ∈ seg.lines, l.comment_kind ≠ CommentKind.NONE) ∧
      classify [exDoc1, exBlank, exDoc2] =
        Except.ok
          [{ kind := SegKind.DOC, indent_width := 0, delimiter := some "//",
             lines := [exDoc1] },
           { kind := SegKind.CODE, indent_width := 0, delimiter := none,
             lines := [exBlank] },
           { kind := SegKind.DOC, indent_width := 0, delimiter := some "//",
             lines := [exDoc2] }] := by
  refine ⟨?_, rfl⟩
  intro seg hseg hdoc l hl hnone
  have hline := (classify_docOk lines segs h seg hseg hdoc l hl).1
  rw [is_doc_line, hnone] at hline
  simp [isComment] at hline

/-- Witness for C3: the DOC segment produced from `[exDoc1]` holds no
blank-tagged line. -/
theorem claim_C3_blank_line_witness :
    exDoc1.comment_kind ≠ CommentKind.NONE :=
  (claim_C3_blank_line [exDoc1] _ rfl).1
    { kind := SegKind.DOC, indent_width := 0, delimiter := some "//",
      lines := [exDoc1] }
    (List.mem_singleton.mpr rfl) rfl exDoc1 (List.mem_singleton.mpr rfl)

/-- Claim C4: a line with `has_space_after_delimiter = false` never appears
inside a DOC segment of the output of `classify`: every output segment that
contains such a line is a CODE segment. -/
theorem claim_C4_no_space_exclusion (lines : List SourceLine)
    (segs : List Segment) (h : classify lines = Except.ok segs)
    (seg : Segment) (hseg : seg ∈ segs) (l : SourceLine) (hl : l ∈ seg.lines)
    (hns : l.has_space_after_delimiter = false) :
    seg.kind = SegKind.CODE := by
  cases hk : seg.kind with
  | CODE => rfl
  | DOC =>
      have hline := (classify_docOk lines segs h seg hseg hk l hl).1
      rw [is_doc_line, hns] at hline
      simp at hline

/-- Witness for C4 on `[exBlank]`, whose line has no space after a
delimiter. -/
theorem claim_C4_no_space_exclusion_witness :
    ({ kind := SegKind.CODE, indent_width := 0, delimiter := none,
        lines := [exBlank] } : Segment).kind = SegKind.CODE :=
  claim_C4_no_space_exclusion [exBlank] _ rfl _
    (List.mem_singleton.mpr rfl) exBlank (List.mem_singleton.mpr rfl) rfl

/-- Claim C5: a line with `trailing_code = true` never appears inside a DOC
segment of the output of `classify`, regardless of its spacing: every output
segment that contains such a line is a CODE segment. -/
theorem claim_C5_same_line_exclusion (lines : List SourceLine)
    (segs : List Segment) (h : classify lines = Except.ok segs)
    (seg : Segment) (hseg : seg ∈ segs) (l : SourceLine) (hl : l ∈ seg.lines)
    (htc : l.trailing_code = true) :
    seg.kind = SegKind.CODE := by
  cases hk : seg.kind with
  | CODE => rfl
  | DOC =>
      have hline := (classify_docOk lines segs h seg hseg hk l hl).1
      rw [is_doc_line, htc] at hline
      simp at hline

/-- Witness for C5 on `[exCode]`, a comment sharing its line with code and
with a space after its delimiter. -/
theorem claim_C5_same_line_exclusion_witness :
    ({ kind := SegKind.CODE, indent_width := 0, delimiter := none,
        lines := [exCode] } : Segment).kind = SegKind.CODE :=
  claim_C5_same_line_exclusion [exCode] _ rfl _
    (List.mem_singleton.mpr rfl) exCode (List.mem_singleton.mpr rfl) rfl

/-- Claim C6: `classify` reports `MalformedInputError` to the caller if and
only if some line has `comment_kind` `BLOCK_BODY` or `BLOCK_END` without a
preceding `BLOCK_START` in the same accumulation context (the context starts
closed); every other input is handled without error. -/
theorem claim_C6_malformed_iff (lines : List SourceLine) :
    (∃ e, classify lines = Except.error e) ↔
      malformedFrom false lines = true :=
  classifyGo_error_iff lines { done := [], acc := none, block_open := false }

/-- Witness for C6: a lone `BLOCK_BODY` line is rejected. -/
theorem claim_C6_malformed_iff_witness :
    ∃ e, classify [exBody] = Except.error e :=
  (claim_C6_malformed_iff [exBody]).mpr rfl

/-- Claim C7: on the empty input sequence, `classify` returns the empty
segment sequence and no error. -/
theorem claim_C7_empty_input : classify [] = Except.ok [] := rfl

/-- Claim C8: `classify` is idempotent: re-classifying the concatenation of
the output segments' lines (the per-line roles being re-derived identically
by the deterministic tokenizer) yields the same segmentation. -/
theorem claim_C8_idempotent (lines : List SourceLine) (segs : List Segment)
    (h : classify lines = Except.ok segs) :
    classify ((segs.map Segment.lines).flatten) = Except.ok segs := by
  have hcov := classifyGo_flatten lines _ segs h
  simp only [accLines, List.map_nil, List.flatten_nil, List.nil_append]
    at hcov
  rw [hcov]
  exact h

/-- Witness for C8 on `[exDoc1, exDoc2]`. -/
theorem claim_C8_idempotent_witness :
    classify
        (([{ kind := SegKind.DOC, indent_width := 0, delimiter := some "//",
              lines := [exDoc1, exDoc2] }] : List Segment).map
            Segment.lines).flatten
      = Except.ok
          [{ kind := SegKind.DOC, indent_width := 0, delimiter := some "//",
             lines := [exDoc1, exDoc2] }] :=
  claim_C8_idempotent [exDoc1, exDoc2] _ rfl

/-- Claim C9: the program's `main` is a no-op: for every `argc` and `argv`
it performs no observable call (the `/** foo(); */` comment and the `#if 0`
block contribute nothing) and returns 0. -/
theorem claim_C9_main_noop (argc : Int) (argv : List String) :
    main_cpp argc argv = ([], 0) := rfl

/-- Claim C10: `accurate_g` returns exactly `IGF + FAC`, where `IGF` and
`FAC` are the claim's formulas with `sin` applied directly to the latitude in
degrees; the identity holds under every interpretation of the arithmetic
operations, in particular the program's floating-point arithmetic, and the
result depends on nothing but the two arguments. -/
theorem claim_C10_accurate_g {α : Type} (A : Arith α)
    (degrees_latitude height_meters : α) :
    accurate_g A degrees_latitude height_meters
      = A.add (IGF_claim A degrees_latitude) (FAC_claim A height_meters) :=
  rfl

end CodeChat
